import Mathlib

/-!
Verification of the autosedance server-side orchestration kernel.

This file shallowly embeds the parts of the Python sources that the claims
concern, and proves (or refutes) each claim about them:

* `src/autosedance/utils/canon.py` — the canonical context store.
* `src/autosedance/server/utils.py` — server-side helpers (`canon_before_index`,
  `total_segments`, `derive_next_action`).
* `src/autosedance/server/routes/segments.py` — segment update / upload routes.
* `src/autosedance/server/routes/jobs.py` — job creation route.
* `src/autosedance/server/authz.py` — ownership assertion.
* `src/autosedance/server/worker.py` — the job engine loop.
* `src/autosedance/utils/video.py` — concat validation and strategy selection.

Python strings are modelled as Lean `String` manipulated through their
character lists (all operations structural, hence kernel-computable).
Python's `str.strip` is modelled with `Char.isWhitespace` (ASCII whitespace),
and the regex character class `\d` with ASCII digits; the sources only ever
produce ASCII digits in the relevant tokens.  Python floats are modelled as
rationals.
-/

/-- Decimal value of a digit run, as Python `int()` applied to a `\d+` group. -/
def natOfDigits (ds : List Char) : Nat :=
  ds.foldl (fun n c => n * 10 + (c.toNat - 48)) 0

/-- Strip leading and trailing whitespace, as Python `str.strip()`. -/
def stripChars (xs : List Char) : List Char :=
  ((xs.dropWhile Char.isWhitespace).reverse.dropWhile Char.isWhitespace).reverse

/-- Fuel-driven splitting worker for `splitOnChars`. -/
def splitOnAux (sep : List Char) : Nat → List Char → List Char → List (List Char)
  | 0, xs, acc => [acc.reverse ++ xs]
  | _ + 1, [], acc => [acc.reverse]
  | fuel + 1, c :: rest, acc =>
    if sep.isPrefixOf (c :: rest) then
      acc.reverse :: splitOnAux sep fuel ((c :: rest).drop sep.length) []
    else
      splitOnAux sep fuel rest (c :: acc)

/-- Split on a non-empty separator, as Python `str.split(sep)`. -/
def splitOnChars (sep xs : List Char) : List (List Char) :=
  splitOnAux sep (xs.length + 1) xs []

/-- Join with a separator, as Python `sep.join(parts)`. -/
def joinSep (sep : String) : List String → String
  | [] => ""
  | [x] => x
  | x :: y :: rest => x ++ sep ++ joinSep sep (y :: rest)

/-- `split_canon` from `utils/canon.py` (the copy in `server/utils.py` is
identical): split on `"\n---\n"`, strip each part, drop blank parts. -/
def split_canon (canon : String) : List String :=
  (((splitOnChars "\n---\n".data canon.data).map stripChars).filter
      (fun p => !p.isEmpty)).map (fun l => String.mk l)

namespace Canon

/-- Match of `IDX_TOKEN_RE = ^\[#IDX=(\d+)\]\s*` at the start of an item:
the literal `[#IDX=`, a maximal non-empty digit run, then `]`. -/
def idxTokenMatch (xs : List Char) : Option Nat :=
  if ("[#IDX=".data).isPrefixOf xs then
    let rest := xs.drop 6
    let ds := rest.takeWhile Char.isDigit
    if ds.isEmpty then none
    else if (rest.drop ds.length).head? = some ']' then some (natOfDigits ds)
    else none
  else none

/-- Match of `LEGACY_ZH_RE = ^片段(\d+)\(` at the start of an item. -/
def legacyZhMatch (xs : List Char) : Option Nat :=
  if ("片段".data).isPrefixOf xs then
    let rest := xs.drop 2
    let ds := rest.takeWhile Char.isDigit
    if ds.isEmpty then none
    else if (rest.drop ds.length).head? = some '(' then some (natOfDigits ds)
    else none
  else none

/-- `parse_canon_index` from `utils/canon.py`: try the `[#IDX=n]` token first,
then the legacy `片段N(` marker. -/
def parse_canon_index (item : String) : Option Nat :=
  match idxTokenMatch item.data with
  | some n => some n
  | none => legacyZhMatch item.data

/-- The `kept` list built by the loop of `canon_before_index` in
`utils/canon.py`: an item whose parsed index is `none` is kept, otherwise it
is kept exactly when its index is `< index`. -/
def canon_before_index_kept (canon : String) (index : Int) : List String :=
  (split_canon canon).foldl
    (fun kept item =>
      match parse_canon_index item with
      | some idx => if (idx : Int) < index then kept ++ [item] else kept
      | none => kept ++ [item])
    []

/-- `canon_before_index` from `utils/canon.py`. -/
def canon_before_index (canon : String) (index : Int) : String :=
  joinSep "\n---\n" (canon_before_index_kept canon index)

end Canon

namespace SrvUtils

/-- The `kept` list built by the loop of `canon_before_index` in
`server/utils.py`.  Unlike the version in `utils/canon.py`, this loop only
recognises the legacy `片段N(` marker (`re.match(r"^片段(\d+)\(", item)`); an
item carrying only a `[#IDX=n]` token does not match and is always kept. -/
def canon_before_index_kept (canon : String) (index : Int) : List String :=
  (split_canon canon).foldl
    (fun kept item =>
      match Canon.legacyZhMatch item.data with
      | some n => if (n : Int) < index then kept ++ [item] else kept
      | none => kept ++ [item])
    []

/-- `canon_before_index` from `server/utils.py` (used by the segment routes
and the worker). -/
def canon_before_index (canon : String) (index : Int) : String :=
  joinSep "\n---\n" (canon_before_index_kept canon index)

end SrvUtils

/-- The keep-predicate that the spec ascribes to `before_index`: items without
a recognizable IDX are kept, items with parsed IDX are kept iff it is `< k`. -/
def keepsItem (k : Int) (item : String) : Bool :=
  match Canon.parse_canon_index item with
  | some idx => decide ((idx : Int) < k)
  | none => true

/-- The `kept`-building fold of `canon_before_index` is a filter. -/
theorem keep_foldl_eq_filter (p : String → Option Nat) (k : Int) :
    ∀ (l : List String) (acc : List String),
      l.foldl
        (fun kept item =>
          match p item with
          | some idx => if (idx : Int) < k then kept ++ [item] else kept
          | none => kept ++ [item])
        acc
      = acc ++ l.filter (fun item =>
          match p item with
          | some idx => decide ((idx : Int) < k)
          | none => true) := by
  intro l
  induction l with
  | nil => intro acc; simp
  | cons a l ih =>
    intro acc
    rcases hpa : p a with _ | idx
    · simp only [List.foldl_cons, List.filter_cons, hpa, ih]
      simp
    · by_cases h : (idx : Int) < k
      · simp only [List.foldl_cons, List.filter_cons, hpa, if_pos h, ih]
        simp [h]
      · simp only [List.foldl_cons, List.filter_cons, hpa, if_neg h, ih]
        simp [h]

/-- C5: `canon_before_index` from `utils/canon.py` keeps exactly the items
whose parsed IDX (via the `[#IDX=n]` token or the legacy `片段N(` marker) is
strictly below the cut index, keeps every item without a parseable IDX, and
leaves no item with parseable IDX `≥ k` in the result. -/
theorem canon_before_index_keeps_exactly_below (canon : String) (k : Int) :
    (Canon.canon_before_index canon k
      = joinSep "\n---\n" ((split_canon canon).filter (keepsItem k)))
    ∧ (∀ item ∈ Canon.canon_before_index_kept canon k,
        ∀ j, Canon.parse_canon_index item = some j → (j : Int) < k)
    ∧ (∀ item ∈ split_canon canon,
        (Canon.parse_canon_index item = none
          ∨ ∃ j, Canon.parse_canon_index item = some j ∧ (j : Int) < k)
        → item ∈ Canon.canon_before_index_kept canon k) := by
  have hkept : Canon.canon_before_index_kept canon k
      = (split_canon canon).filter (keepsItem k) := by
    unfold Canon.canon_before_index_kept keepsItem
    rw [keep_foldl_eq_filter Canon.parse_canon_index k (split_canon canon) []]
    simp
  refine ⟨?_, ?_, ?_⟩
  · unfold Canon.canon_before_index
    rw [hkept]
  · intro item hmem j hparse
    rw [hkept] at hmem
    have hp := (List.mem_filter.mp hmem).2
    unfold keepsItem at hp
    rw [hparse] at hp
    exact of_decide_eq_true hp
  · intro item hmem hcase
    rw [hkept]
    refine List.mem_filter.mpr ⟨hmem, ?_⟩
    unfold keepsItem
    rcases hcase with hnone | ⟨j, hsome, hlt⟩
    · rw [hnone]
    · rw [hsome]
      exact decide_eq_true hlt

/-- Witness for C5 at a concrete canon holding an `[#IDX=1]` item, a legacy
`片段2(` item and an untagged item. -/
theorem canon_before_index_keeps_exactly_below_witness :
    ((1 : Nat) : Int) < 5 ∧
      "untagged note"
        ∈ Canon.canon_before_index_kept
            "[#IDX=1] #002 (15s-30s): B\n---\nuntagged note\n---\n片段7(x)" 5 := by
  constructor
  · exact (canon_before_index_keeps_exactly_below
      "[#IDX=1] #002 (15s-30s): B\n---\nuntagged note\n---\n片段7(x)" 5).2.1
      "[#IDX=1] #002 (15s-30s): B" (by decide) 1 (by decide)
  · exact (canon_before_index_keeps_exactly_below
      "[#IDX=1] #002 (15s-30s): B\n---\nuntagged note\n---\n片段7(x)" 5).2.2
      "untagged note" (by decide) (Or.inl (by decide))

/-! ## Data model (`server/models.py`) -/

/-- The `Project` row (fields relevant to the claims; timestamps omitted).
Defaults are those of `server/models.py`. -/
structure Project where
  user_prompt : String := ""
  pacing : String := "normal"
  total_duration_seconds : Nat
  segment_duration : Nat := 15
  full_script : Option String := none
  canon_summaries : String := ""
  current_segment_index : Int := 0
  last_frame_path : Option String := none
  final_video_path : Option String := none
deriving Repr, DecidableEq

/-- The `Segment` row of one project (the `project_id` column is implicit in
keeping per-project segment lists; timestamps omitted). -/
structure Segment where
  index : Int
  segment_script : String := ""
  video_prompt : String := ""
  video_path : Option String := none
  video_description : Option String := none
  last_frame_path : Option String := none
  status : String := "pending"
deriving Repr, DecidableEq

/-- Request body `UpdateSegmentIn` (`server/schemas.py`). -/
structure UpdateSegmentIn where
  segment_script : Option String := none
  video_prompt : Option String := none
  invalidate_downstream : Bool := true
deriving Repr

/-! ## Segment routes (`server/routes/segments.py`) -/

/-- `_invalidate_downstream_segments`: every segment with index `> index` is
reset to `pending` with script, prompt, video, frame and description cleared. -/
def invalidate_downstream_segments (segs : List Segment) (index : Int) : List Segment :=
  segs.map fun s =>
    if index < s.index then
      { s with status := "pending", segment_script := "", video_prompt := "",
               video_path := none, video_description := none, last_frame_path := none }
    else s

/-- `_latest_frame_before`: the `last_frame_path` of the largest-index segment
below `index` that has one (`ORDER BY index DESC LIMIT 1`). -/
def latest_frame_before (segs : List Segment) (index : Int) : Option String :=
  let best := segs.foldl
    (fun acc s =>
      if s.index < index ∧ s.last_frame_path ≠ none then
        match acc with
        | none => some s
        | some b => if b.index < s.index then some s else acc
      else acc)
    none
  best.bind Segment.last_frame_path

/-- `_get_segment`: first row with the given index. -/
def find_segment (segs : List Segment) (index : Int) : Option Segment :=
  segs.find? (fun s => s.index == index)

/-- The database effect of `update_segment` (`PUT .../segments/{index}`) on an
existing project, given the project row and its segment rows.  Mirrors the
route body: upsert the edited segment (media cleared when script or prompt is
supplied, status forced to `script_ready`), then, when
`invalidate_downstream` is set, reset the downstream segments, trim the canon
with `SrvUtils.canon_before_index` (the route imports `canon_before_index`
from `server/utils.py`, not from `utils/canon.py`), reseed
`last_frame_path`, clear `final_video_path` and move the cursor to `index`. -/
def update_segment (project : Project) (segments : List Segment) (index : Int)
    (payload : UpdateSegmentIn) : Project × List Segment :=
  let seg0 := (find_segment segments index).getD { index := index }
  let seg1 := { seg0 with
    segment_script := payload.segment_script.getD seg0.segment_script,
    video_prompt := payload.video_prompt.getD seg0.video_prompt }
  let seg2 :=
    if payload.segment_script.isSome || payload.video_prompt.isSome then
      { seg1 with video_path := none, video_description := none, last_frame_path := none }
    else seg1
  let seg3 := { seg2 with status := "script_ready" }
  let segments1 :=
    if (find_segment segments index).isSome then
      segments.map (fun s => if s.index == index then seg3 else s)
    else segments ++ [seg3]
  if payload.invalidate_downstream then
    let segments2 := invalidate_downstream_segments segments1 index
    let project2 := { project with
      canon_summaries := SrvUtils.canon_before_index project.canon_summaries index,
      last_frame_path := latest_frame_before segments2 index,
      final_video_path := none,
      current_segment_index := index }
    (project2, segments2)
  else
    (project, segments1)

/-- Project state for the cascading-invalidation scenario: two completed
segments whose canon items carry the `[#IDX=n]` tokens that
`format_canon_summary` (from `utils/canon.py`) writes. -/
def c1Project : Project :=
  { user_prompt := "test prompt", total_duration_seconds := 30, segment_duration := 15,
    full_script := some "FULL_SCRIPT",
    canon_summaries := "[#IDX=0] #001 (0s-15s): A\n---\n[#IDX=1] #002 (15s-30s): B",
    current_segment_index := 2,
    last_frame_path := some "frames/frame_001.jpg",
    final_video_path := some "final/output.mp4" }

/-- Segment rows for the cascading-invalidation scenario. -/
def c1Segments : List Segment :=
  [ { index := 0, segment_script := "S0", video_prompt := "P0",
      video_path := some "input_videos/segment_000.mp4",
      video_description := some "D0",
      last_frame_path := some "frames/frame_000.jpg", status := "completed" },
    { index := 1, segment_script := "S1", video_prompt := "P1",
      video_path := some "input_videos/segment_001.mp4",
      video_description := some "D1",
      last_frame_path := some "frames/frame_001.jpg", status := "completed" } ]

/-- C1: evaluating `update_segment` at the spec's cascading-invalidation
scenario (`PUT .../segments/0 {segment_script:"EDITED",
invalidate_downstream:true}` with two completed segments).  Segment 1 is reset
to `pending`, the cursor moves to 0 and `final_video_path` is cleared, but the
canon is returned unchanged: the route trims with `canon_before_index` from
`server/utils.py`, which only parses the legacy `片段N(` marker, so the
`[#IDX=1]` item (index `1 ≥ 0`) survives the trim. -/
theorem update_segment_keeps_idx_tagged_canon :
    ((update_segment c1Project c1Segments 0
        { segment_script := some "EDITED", invalidate_downstream := true }).1.canon_summaries
      = "[#IDX=0] #001 (0s-15s): A\n---\n[#IDX=1] #002 (15s-30s): B")
    ∧ ((split_canon (update_segment c1Project c1Segments 0
          { segment_script := some "EDITED", invalidate_downstream := true }).1.canon_summaries).any
        (fun item => Canon.parse_canon_index item == some 1) = true)
    ∧ (((update_segment c1Project c1Segments 0
          { segment_script := some "EDITED", invalidate_downstream := true }).2.find?
            (fun s => s.index == 1)).map Segment.status = some "pending")
    ∧ ((update_segment c1Project c1Segments 0
        { segment_script := some "EDITED", invalidate_downstream := true }).1.current_segment_index = 0)
    ∧ ((update_segment c1Project c1Segments 0
        { segment_script := some "EDITED", invalidate_downstream := true }).1.final_video_path = none) := by
  refine ⟨by decide, by decide, by decide, by decide, by decide⟩

/-! ## Jobs (`server/models.py`, `server/routes/jobs.py`, `server/authz.py`) -/

/-- A JSON value, as far as the job rows need one (`payload_json` /
`result_json` hold JSON objects; `_job_to_out` parses them into dicts). -/
inductive Jv where
  | str : String → Jv
  | num : Int → Jv
  | obj : List (String × Jv) → Jv
deriving Repr

/-- The `Job` row.  `result` holds the parsed form of `result_json`
(an association list standing for the JSON object);
`created_at` is an abstract tick. -/
structure Job where
  id : Nat
  project_id : String
  type : String := ""
  status : String := "queued"
  progress : Int := 0
  message : String := ""
  error : Option String := none
  result : List (String × Jv) := []
  created_at : Nat := 0

/-- An `HTTPException(status_code, detail)`. -/
structure HErr where
  status : Nat
  detail : String
deriving Repr, DecidableEq

/-- The database state the job routes touch. -/
structure Db where
  projects : List String
  owners : List (String × String)
  jobs : List Job
  next_job_id : Nat := 0

/-- `require_project_owner` (`server/authz.py`): no-op for an empty user id
(auth disabled), otherwise 404 unless `(project_id, user_id)` is an owner
row. -/
def require_project_owner (owners : List (String × String)) (project_id user_id : String) :
    Except HErr Unit :=
  if user_id = "" then .ok ()
  else if owners.any (fun o => o.1 == project_id && o.2 == user_id) then .ok ()
  else .error ⟨404, "Project not found"⟩

/-- Request body `CreateJobIn` (`server/schemas.py`). -/
structure CreateJobIn where
  type : String
  index : Option Int := none
  feedback : Option String := none
  locale : Option String := none

/-- `create_job` (`POST /api/projects/{project_id}/jobs`,
`server/routes/jobs.py`).  The route's only dependency is the DB session — it
declares no authenticated-user dependency and never calls
`require_project_owner`; the inserted row has `status="queued"`,
`progress=0`, `message="queued"` and `result_json="{}"` (an empty object). -/
def create_job (db : Db) (project_id : String) (payload : CreateJobIn) (now : Nat) :
    Except HErr (Db × Job) :=
  if db.projects.contains project_id then
    let job : Job :=
      { id := db.next_job_id, project_id := project_id, type := payload.type,
        status := "queued", progress := 0, message := "queued", error := none,
        result := [], created_at := now }
    .ok ({ db with jobs := db.jobs ++ [job], next_job_id := db.next_job_id + 1 }, job)
  else .error ⟨404, "Project not found"⟩

/-- Database with project `p1` owned by `alice@example.com` and no jobs. -/
def c2Db : Db :=
  { projects := ["p1"], owners := [("p1", "alice@example.com")], jobs := [], next_job_id := 0 }

/-- C2: the job-creation endpoint performs the insert for a principal that is
not the project's owner.  `require_project_owner` would map
(`p1`, `bob@example.com`) to a 404, but `create_job` never consults it (nor
any principal at all), so the request succeeds and the job row is inserted. -/
theorem create_job_skips_ownership_check :
    (require_project_owner c2Db.owners "p1" "bob@example.com"
      = Except.error ⟨404, "Project not found"⟩)
    ∧ (∃ db' job, create_job c2Db "p1" { type := "full_script" } 5 = Except.ok (db', job)
        ∧ db'.jobs.length = 1 ∧ job.status = "queued") := by
  refine ⟨rfl, ⟨_, _, rfl, rfl, rfl⟩⟩

/-- C3: the job row inserted by `POST /api/projects/{id}/jobs` has
`status="queued"` and `progress=0`, but its `result` is the empty object —
there is no `ui_message` entry, let alone one with key `jobmsg.queued`
(the route writes `result_json="{}"`). -/
theorem create_job_result_has_no_ui_message :
    ∃ db' job,
      create_job c2Db "p1" { type := "full_script", locale := some "en" } 0
        = Except.ok (db', job)
      ∧ job.status = "queued" ∧ job.progress = 0
      ∧ job.result.lookup "ui_message" = none := by
  exact ⟨_, _, rfl, rfl, rfl, rfl⟩

/-! ## Video upload (`server/routes/segments.py`, `upload_segment_video`) -/

/-- The streaming loop of `upload_segment_video`: read ≤ 1 MiB chunks,
add the chunk size to the running total, abort with 413 once the total
exceeds `max_bytes` (the over-limit chunk is not written), otherwise append
the chunk to the destination file.  The state threaded through is
`(written, bytes present in the destination file)`. -/
def upload_chunks_loop (max_bytes : Nat) :
    List Nat → Nat → Nat → Except HErr Unit × Nat
  | [], _written, fileBytes => (.ok (), fileBytes)
  | c :: rest, written, fileBytes =>
    let written' := written + c
    if written' > max_bytes then (.error ⟨413, "UPLOAD_TOO_LARGE"⟩, fileBytes)
    else upload_chunks_loop max_bytes rest written' (fileBytes + c)

/-- The file-writing part of `upload_segment_video`, abstracted over the
sequence of chunk sizes the request body yields.  `dst.open("wb")` creates
(or truncates) the destination before the first read, and nothing removes it
when the loop raises: the second component is the size of the file left on
disk, which is `some _` in every outcome. -/
def upload_segment_video_stream (max_upload_mb : Nat) (chunks : List Nat) :
    Except HErr Unit × Option Nat :=
  let max_bytes := max_upload_mb * 1024 * 1024
  let r := upload_chunks_loop max_bytes chunks 0 0
  (r.fst, some r.snd)

/-- C4: a 2 MiB body against `max_upload_mb = 1` (two 1 MiB reads) is rejected
with 413 `UPLOAD_TOO_LARGE`, but the destination file is left on disk holding
the first 1 MiB: the route never unlinks `dst` on the 413 path, so a file is
persisted even though the claim (and spec §8) require that none be. -/
theorem upload_too_large_keeps_file_on_disk :
    ((upload_segment_video_stream 1 [1048576, 1048576]).fst
      = Except.error ⟨413, "UPLOAD_TOO_LARGE"⟩)
    ∧ ((upload_segment_video_stream 1 [1048576, 1048576]).snd = some 1048576)
    ∧ (1048576 + 1048576 > 1 * 1024 * 1024) := by
  refine ⟨rfl, rfl, by decide⟩

/-! ## Concat validation (`utils/video.py`, `_validate_concat`) -/

/-- The rejection reasons `_validate_concat` can return (the source returns
reason strings; the numeric payloads of the formatted messages are carried
as rationals instead of being rendered to 3 decimals). -/
inductive ConcatReject where
  | missing_output
  | empty_output
  | unstatable_output
  | invalid_duration
  | duration_mismatch (out expected tol : ℚ)
  | av_desync (v a tol : ℚ)
deriving Repr, DecidableEq

/-- The three durations `_durations_from_probe` extracts from an ffprobe
result: format duration, first video-stream duration, first audio-stream
duration. -/
structure ProbeDurations where
  fmt_dur : Option ℚ := none
  v_dur : Option ℚ := none
  a_dur : Option ℚ := none
deriving Repr, DecidableEq

/-- The primary duration of `_validate_concat`:
`v_dur if (v_dur is not None and v_dur > 0) else fmt_dur`. -/
def primary_duration (p : ProbeDurations) : Option ℚ :=
  match p.v_dur with
  | some v => if 0 < v then some v else p.fmt_dur
  | none => p.fmt_dur

/-- `_validate_concat(output_path, expected_total)` with the default
tolerances `tol_abs=1.0`, `tol_ratio=0.03`, `av_desync_tol=0.5`.  The file
system state is abstracted to `out_size : Option Int` (`none` = the output
does not exist, otherwise its `st_size`), and the probe to its three
durations. -/
def validate_concat (out_size : Option Int) (p : ProbeDurations) (expected_total : ℚ) :
    Option ConcatReject :=
  match out_size with
  | none => some .missing_output
  | some sz =>
    if sz ≤ 0 then some .empty_output
    else
      match primary_duration p with
      | none => some .invalid_duration
      | some prim =>
        if prim ≤ 0 then some .invalid_duration
        else
          let tol := max 1 (expected_total * (3 / 100))
          if |prim - expected_total| > tol then
            some (.duration_mismatch prim expected_total tol)
          else
            match p.v_dur, p.a_dur with
            | some v, some a =>
              if 0 < v ∧ 0 < a then
                if |v - a| > 1 / 2 then some (.av_desync v a (1 / 2)) else none
              else none
            | _, none => none
            | none, _ => none

set_option maxHeartbeats 1600000 in
/-- C6: `_validate_concat` returns a rejection reason exactly when the output
is missing, empty, or has no positive primary duration; or the primary
duration differs from the expected total by more than
`max(1.0, 0.03 × expected)`; or both a video and an audio duration are
present and positive and they differ by more than `0.5`. -/
theorem validate_concat_rejects_iff (out_size : Option Int) (p : ProbeDurations)
    (expected_total : ℚ) :
    validate_concat out_size p expected_total ≠ none ↔
      (out_size = none
        ∨ (∃ sz, out_size = some sz ∧ sz ≤ 0)
        ∨ (¬ ∃ prim, primary_duration p = some prim ∧ 0 < prim)
        ∨ (∃ prim, primary_duration p = some prim
            ∧ |prim - expected_total| > max 1 (expected_total * (3 / 100)))
        ∨ (∃ v a, p.v_dur = some v ∧ p.a_dur = some a ∧ 0 < v ∧ 0 < a
            ∧ |v - a| > 1 / 2)) := by
  obtain ⟨fd, vd, ad⟩ := p
  rcases out_size with _ | sz
  · simp [validate_concat]
  · rcases vd with _ | v
    · rcases ad with _ | a <;> rcases fd with _ | f <;>
        simp only [validate_concat, primary_duration] <;>
          split_ifs <;> simp_all [not_le, not_lt] <;> first | linarith | tauto
    · by_cases h0v : 0 < v
      · rcases ad with _ | a <;> rcases fd with _ | f <;>
          simp only [validate_concat, primary_duration, if_pos h0v] <;>
            split_ifs <;> simp_all [not_le, not_lt] <;> first | linarith | tauto
      · rcases ad with _ | a <;> rcases fd with _ | f <;>
          simp only [validate_concat, primary_duration, if_neg h0v] <;>
            split_ifs <;> simp_all [not_le, not_lt] <;> first | linarith | tauto

/-! ## Concat strategy selection (`utils/video.py`, `concatenate_videos`) -/

/-- `VIDEO_CONCAT_MODE` after validation (`auto|copy|ts|reencode`). -/
inductive ConcatMode where
  | auto
  | copy
  | ts
  | reencode
deriving Repr, DecidableEq

/-- Outcome of one strategy attempt (`attempt_copy` / `attempt_ts` /
`attempt_reencode`): either the strategy or its probe raised (`.error msg`),
or it produced an output that `_validate_concat` maps to `.ok reason?`
(`none` = accepted). -/
abbrev AttemptResult := Except String (Option String)

/-- The message of the exception a failed attempt raises inside `run_concat`:
a raised exception keeps its message, and a validation rejection is re-raised
as `RuntimeError(reason)`.  A successful attempt yields no message. -/
def attempt_fail_msg : AttemptResult → Option String
  | .error e => some e
  | .ok (some reason) => some reason
  | .ok none => none

/-- The reencode stage of `run_concat`: attempted for modes `auto` and
`reencode`; its failure is always fatal and appends its diagnostic. -/
def run_concat_reencode (mode : ConcatMode) (errors : List String)
    (reencode_res : AttemptResult) : Except (String × List String) (List String) :=
  if mode = .auto ∨ mode = .reencode then
    match attempt_fail_msg reencode_res with
    | none => .ok errors
    | some m => .error (m, errors ++ ["reencode_concat: " ++ m])
  else .error ("No concat strategy attempted", errors)

/-- The ts stage of `run_concat`: attempted for modes `auto` and `ts`; a
failure appends `ts_concat: <msg>` and is fatal only for mode `ts`. -/
def run_concat_ts (mode : ConcatMode) (errors : List String)
    (ts_res reencode_res : AttemptResult) : Except (String × List String) (List String) :=
  if mode = .auto ∨ mode = .ts then
    match attempt_fail_msg ts_res with
    | none => .ok errors
    | some m =>
      let errors' := errors ++ ["ts_concat: " ++ m]
      if mode = .ts then .error (m, errors')
      else run_concat_reencode mode errors' reencode_res
  else run_concat_reencode mode errors reencode_res

/-- `run_concat` from `concatenate_videos`, abstracted over the outcomes of
the three strategy attempts.  A success returns the diagnostics accumulated
before it; a failure carries the exception message that escapes `run_concat`
together with all accumulated diagnostics (which `concatenate_videos` then
formats with `assembly_error_message`). -/
def run_concat (mode : ConcatMode) (copy_res ts_res reencode_res : AttemptResult) :
    Except (String × List String) (List String) :=
  if mode = .auto ∨ mode = .copy then
    match attempt_fail_msg copy_res with
    | none => .ok []
    | some m =>
      let errors' := ["copy_concat: " ++ m]
      if mode = .copy then .error (m, errors')
      else run_concat_ts mode errors' ts_res reencode_res
  else run_concat_ts mode [] ts_res reencode_res

/-- The wrapper message of `concatenate_videos` when `run_concat` raises:
`Video assembly failed: <e>` followed by one `- <msg>` line per attempt. -/
def assembly_error_message (e : String) (errors : List String) : String :=
  let details :=
    if errors.isEmpty then "(no details)"
    else joinSep "\n" (errors.map (fun msg => "- " ++ msg))
  "Video assembly failed: " ++ e ++ "\nAttempts:\n" ++ details

/-- Concatenation of `String.append` is associative (used to regroup the
assembled error message). -/
theorem string_append_assoc (a b c : String) : a ++ b ++ c = a ++ (b ++ c) := by
  rcases a with ⟨as⟩; rcases b with ⟨bs⟩; rcases c with ⟨cs⟩
  show String.mk (as ++ bs ++ cs) = String.mk (as ++ (bs ++ cs))
  rw [List.append_assoc]

/-- C7: in `auto` mode the strategies run in the order copy, ts, reencode;
a copy or ts failure is non-fatal and appends its diagnostic before the next
strategy runs; the first attempt that passes validation ends the procedure
with the diagnostics gathered so far; if all three fail, the raised error
lists every accumulated attempt reason; a non-`auto` mode attempts only its
own strategy. -/
theorem concatenate_videos_strategy_order (c t r : AttemptResult) :
    (run_concat .auto c t r =
      match attempt_fail_msg c with
      | none => .ok []
      | some m1 =>
        match attempt_fail_msg t with
        | none => .ok ["copy_concat: " ++ m1]
        | some m2 =>
          match attempt_fail_msg r with
          | none => .ok ["copy_concat: " ++ m1, "ts_concat: " ++ m2]
          | some m3 => .error (m3,
              ["copy_concat: " ++ m1, "ts_concat: " ++ m2, "reencode_concat: " ++ m3]))
    ∧ (run_concat .copy c t r =
        match attempt_fail_msg c with
        | none => .ok []
        | some m => .error (m, ["copy_concat: " ++ m]))
    ∧ (run_concat .ts c t r =
        match attempt_fail_msg t with
        | none => .ok []
        | some m => .error (m, ["ts_concat: " ++ m]))
    ∧ (run_concat .reencode c t r =
        match attempt_fail_msg r with
        | none => .ok []
        | some m => .error (m, ["reencode_concat: " ++ m]))
    ∧ (∀ e r1 r2 r3 : String,
        assembly_error_message e [r1, r2, r3]
          = "Video assembly failed: " ++ e ++ "\nAttempts:\n"
              ++ ("- " ++ r1 ++ "\n" ++ ("- " ++ r2 ++ "\n" ++ ("- " ++ r3)))) := by
  refine ⟨?_, ?_, ?_, ?_, ?_⟩
  · rcases c with ec | oc
    · rcases t with et | ot
      · rcases r with er | orr <;> try rcases orr with _ | rr
        all_goals rfl
      · rcases ot with _ | tt
        · rfl
        · rcases r with er | orr <;> try rcases orr with _ | rr
          all_goals rfl
    · rcases oc with _ | cc
      · rfl
      · rcases t with et | ot
        · rcases r with er | orr <;> try rcases orr with _ | rr
          all_goals rfl
        · rcases ot with _ | tt
          · rfl
          · rcases r with er | orr <;> try rcases orr with _ | rr
            all_goals rfl
  · rcases c with ec | oc <;> try rcases oc with _ | cc
    all_goals rfl
  · rcases t with et | ot <;> try rcases ot with _ | tt
    all_goals rfl
  · rcases r with er | orr <;> try rcases orr with _ | rr
    all_goals rfl
  · intro e r1 r2 r3
    simp only [assembly_error_message, joinSep, List.map, List.isEmpty]
    simp [string_append_assoc]

/-! ## Worker finalization (`server/worker.py`, `_set_job` and `_loop`) -/

/-- Python `dict.update`: keys already present keep their position and take
the new value; new keys are appended in order. -/
def dict_update (cur upd : List (String × Jv)) : List (String × Jv) :=
  cur.map (fun kv =>
    match upd.lookup kv.fst with
    | some v => (kv.fst, v)
    | none => kv)
  ++ upd.filter (fun kv => !(cur.any (fun c => c.fst == kv.fst)))

/-- Looking up a key in two filterings of the same list agrees when the two
predicates agree on all entries carrying that key. -/
theorem lookup_filter_congr (k : String) (p q : (String × Jv) → Bool) :
    ∀ upd : List (String × Jv), (∀ kv ∈ upd, kv.fst = k → p kv = q kv) →
      (upd.filter p).lookup k = (upd.filter q).lookup k := by
  intro upd
  induction upd with
  | nil => intro _; rfl
  | cons u us ih =>
    intro h
    have htail : (us.filter p).lookup k = (us.filter q).lookup k :=
      ih (fun kv hkv => h kv (List.mem_cons_of_mem _ hkv))
    by_cases hu : u.fst = k
    · have hpq : p u = q u := h u (List.mem_cons_self _ _) hu
      rcases hp : p u with _ | _
      · rw [List.filter_cons, List.filter_cons, hp, ← hpq, hp]
        simpa using htail
      · rw [List.filter_cons, List.filter_cons, hp, ← hpq, hp]
        simp [List.lookup, hu]
    · have hne : (k == u.fst) = false :=
        beq_eq_false_iff_ne.mpr (fun hk => hu hk.symm)
      rcases hp : p u with _ | _ <;> rcases hq : q u with _ | _ <;>
        rw [List.filter_cons, List.filter_cons, hp, hq] <;>
          simp [List.lookup, hne, htail]

/-- Lookup distributes over list append: the left list is consulted first. -/
theorem lookup_append_pair (k : String) :
    ∀ (A B : List (String × Jv)),
      (A ++ B).lookup k =
        (match A.lookup k with
          | some w => some w
          | none => B.lookup k) := by
  intro A
  induction A with
  | nil => intro B; rfl
  | cons a as ih =>
    intro B
    obtain ⟨a1, a2⟩ := a
    rcases hk : (k == a1) with _ | _
    · simp only [List.cons_append, List.lookup, hk]
      exact ih B
    · simp only [List.cons_append, List.lookup, hk]

/-- Looking up a key through `dict_update` yields the update's value whenever
the update carries that key. -/
theorem lookup_dict_update (k : String) (v : Jv) :
    ∀ (cur upd : List (String × Jv)), upd.lookup k = some v →
      (dict_update cur upd).lookup k = some v := by
  intro cur
  induction cur with
  | nil =>
    intro upd h
    unfold dict_update
    simpa using h
  | cons c cs ih =>
    obtain ⟨c1, c2⟩ := c
    intro upd h
    unfold dict_update
    simp only [List.map_cons, List.cons_append]
    by_cases hc : c1 = k
    · rw [hc, h]
      simp [List.lookup]
    · have hne : (k == c1) = false :=
        beq_eq_false_iff_ne.mpr (fun hk => hc hk.symm)
      have hfil : (upd.filter (fun kv => !((c1 == kv.fst) || cs.any (fun d => d.fst == kv.fst)))).lookup k
          = (upd.filter (fun kv => !(cs.any (fun d => d.fst == kv.fst)))).lookup k := by
        refine lookup_filter_congr k _ _ upd ?_
        intro kv _ hkv
        have hcf : (c1 == kv.fst) = false := by
          refine beq_eq_false_iff_ne.mpr ?_
          rw [hkv]
          exact hc
        rw [hcf]
        simp
      have hih := ih upd h
      unfold dict_update at hih
      rw [lookup_append_pair] at hih
      rcases hm : upd.lookup c1 with _ | w <;>
        · simp only [hm, List.lookup, hne, List.any_cons]
          rw [lookup_append_pair]
          rcases hmap : (List.map (fun kv =>
              match upd.lookup kv.fst with
              | some v => (kv.fst, v)
              | none => kv) cs).lookup k with _ | w2 <;>
            simp only [hmap] at hih ⊢
          · rw [← hih]
            exact hfil
          · exact hih

/-- `_ui_message(key, params)` from `server/worker.py`: the dict
`{"ui_message": {"key": key, "params"?: params}}` merged into `result`. -/
def ui_message_result (key : String) (params : Option Jv) : List (String × Jv) :=
  [("ui_message", Jv.obj
    (("key", Jv.str key) ::
      (match params with
        | some p => [("params", p)]
        | none => [])))]

/-- `_set_job` from `server/worker.py`.  A `none` argument leaves the
corresponding column untouched (Python's `if x is not None` guards); a
supplied `result` is merged into the current result dict
(`cur.update(result)`). -/
def set_job (job : Job) (status : Option String) (progress : Option Int)
    (message : Option String) (error : Option String)
    (result : Option (List (String × Jv))) : Job :=
  let j1 := match status with
    | some s => { job with status := s }
    | none => job
  let j2 := match progress with
    | some p => { j1 with progress := p }
    | none => j1
  let j3 := match message with
    | some m => { j2 with message := m }
    | none => j2
  let j4 := match error with
    | some e => { j3 with error := some e }
    | none => j3
  match result with
  | some r => { j4 with result := dict_update j4.result r }
  | none => j4

/-- The `_loop` transition that claims a queued job:
`status="running", progress=1, message="running", error=None,
result=_ui_message("jobmsg.running")`. -/
def worker_mark_running (job : Job) : Job :=
  set_job job (some "running") (some 1) (some "running") none
    (some (ui_message_result "jobmsg.running" none))

/-- The `_loop` finalization after `_run_job` returns or raises: a normal
return `d` yields `status="succeeded", progress=100, message="succeeded",
result={"data": d, **ui_message(jobmsg.succeeded)}`; an exception `e` yields
`status="failed", progress=int(job.progress or 0), message="failed",
error=str(e), result=ui_message(jobmsg.failed)`. -/
def worker_finalize (job : Job) (outcome : Except String Jv) : Job :=
  match outcome with
  | .ok d =>
    set_job job (some "succeeded") (some 100) (some "succeeded") none
      (some (("data", d) :: ui_message_result "jobmsg.succeeded" none))
  | .error e =>
    set_job job (some "failed") (some job.progress) (some "failed") (some e)
      (some (ui_message_result "jobmsg.failed" none))

/-- The `key` field of a result's `ui_message` object. -/
def result_ui_key (result : List (String × Jv)) : Option Jv :=
  match result.lookup "ui_message" with
  | some (Jv.obj fields) => fields.lookup "key"
  | some (Jv.str _) => none
  | some (Jv.num _) => none
  | none => none

/-- C8: for any job row as the handler left it, a normal handler return `d`
finalizes the row with status `succeeded`, progress 100, `result.data = d`
and `result.ui_message.key = "jobmsg.succeeded"`; a handler exception `e`
finalizes it with status `failed`, message `failed`, `error = e`,
`result.ui_message.key = "jobmsg.failed"`, and the progress exactly as it was
before the failure. -/
theorem worker_finalize_final_states (job : Job) (d : Jv) (e : String) :
    ((worker_finalize job (.ok d)).status = "succeeded"
      ∧ (worker_finalize job (.ok d)).progress = 100
      ∧ (worker_finalize job (.ok d)).result.lookup "data" = some d
      ∧ result_ui_key (worker_finalize job (.ok d)).result = some (Jv.str "jobmsg.succeeded"))
    ∧ ((worker_finalize job (.error e)).status = "failed"
      ∧ (worker_finalize job (.error e)).message = "failed"
      ∧ (worker_finalize job (.error e)).error = some e
      ∧ (worker_finalize job (.error e)).progress = job.progress
      ∧ result_ui_key (worker_finalize job (.error e)).result = some (Jv.str "jobmsg.failed")) := by
  refine ⟨⟨rfl, rfl, ?_, ?_⟩, ⟨rfl, rfl, rfl, rfl, ?_⟩⟩
  · exact lookup_dict_update "data" d job.result
      (("data", d) :: ui_message_result "jobmsg.succeeded" none) rfl
  · show result_ui_key (dict_update job.result
      (("data", d) :: ui_message_result "jobmsg.succeeded" none)) = some (Jv.str "jobmsg.succeeded")
    unfold result_ui_key
    rw [lookup_dict_update "ui_message"
      (Jv.obj [("key", Jv.str "jobmsg.succeeded")]) job.result
      (("data", d) :: ui_message_result "jobmsg.succeeded" none) rfl]
    rfl
  · show result_ui_key (dict_update job.result
      (ui_message_result "jobmsg.failed" none)) = some (Jv.str "jobmsg.failed")
    unfold result_ui_key
    rw [lookup_dict_update "ui_message"
      (Jv.obj [("key", Jv.str "jobmsg.failed")]) job.result
      (ui_message_result "jobmsg.failed" none) rfl]
    rfl

/-! ## Worker dequeue (`server/worker.py`, `_loop`) -/

/-- The `SELECT ... WHERE status='queued' ORDER BY created_at ASC LIMIT 1` of
`_loop`: the earliest-created queued job (first in row order on ties). -/
def oldest_queued (jobs : List Job) : Option Job :=
  jobs.foldl
    (fun acc j =>
      if j.status == "queued" then
        match acc with
        | none => some j
        | some b => if j.created_at < b.created_at then some j else acc
      else acc)
    none

/-- The `SELECT ... WHERE project_id=? AND status='running' LIMIT 1` guard. -/
def has_running_for_project (jobs : List Job) (pid : String) : Bool :=
  jobs.any (fun j => j.project_id == pid && j.status == "running")

/-- Set the status of the job row with the given id. -/
def mark_job_status (jobs : List Job) (id : Nat) (status : String) : List Job :=
  jobs.map (fun j => if j.id == id then { j with status := status } else j)

/-- The dequeue step of one `_loop` iteration: take the oldest queued job;
if any job of the same project is `running`, do nothing (sleep); otherwise
transition it to `running`. -/
def worker_dequeue (jobs : List Job) : List Job :=
  match oldest_queued jobs with
  | none => jobs
  | some j =>
    if has_running_for_project jobs j.project_id then jobs
    else mark_job_status jobs j.id "running"

/-- Number of `running` jobs of one project. -/
def running_count (jobs : List Job) (pid : String) : Nat :=
  jobs.countP (fun j => j.project_id == pid && j.status == "running")

/-- The job-engine exclusivity invariant: at most one running job per
project. -/
def at_most_one_running (jobs : List Job) : Prop :=
  ∀ pid : String, running_count jobs pid ≤ 1

/-- Counting a disjunction is at most the sum of the two counts. -/
theorem countP_or_le_add (p q : Job → Bool) :
    ∀ l : List Job, l.countP (fun x => p x || q x) ≤ l.countP p + l.countP q := by
  intro l
  induction l with
  | nil => simp
  | cons a l ih =>
    rcases hp : p a with _ | _ <;> rcases hq : q a with _ | _ <;>
      simp [List.countP_cons, hp, hq] <;> omega

/-- A result of `oldest_queued` is one of the rows. -/
theorem oldest_queued_mem :
    ∀ (l : List Job) (acc : Option Job) (j : Job),
      l.foldl
        (fun acc j =>
          if j.status == "queued" then
            match acc with
            | none => some j
            | some b => if j.created_at < b.created_at then some j else acc
          else acc)
        acc = some j
      → acc = some j ∨ j ∈ l := by
  intro l
  induction l with
  | nil => intro acc j h; exact Or.inl h
  | cons a l ih =>
    intro acc j h
    rcases ih _ j h with hstep | hmem
    · rcases acc with _ | b <;> dsimp only at hstep
      · by_cases hq : (a.status == "queued") = true
        · rw [if_pos hq] at hstep
          have haj : a = j := Option.some.inj hstep
          exact Or.inr (by rw [← haj]; exact List.mem_cons_self a l)
        · rw [if_neg hq] at hstep
          exact absurd hstep (by simp)
      · by_cases hq : (a.status == "queued") = true
        · rw [if_pos hq] at hstep
          by_cases hlt : a.created_at < b.created_at
          · rw [if_pos hlt] at hstep
            have haj : a = j := Option.some.inj hstep
            exact Or.inr (by rw [← haj]; exact List.mem_cons_self a l)
          · rw [if_neg hlt] at hstep
            exact Or.inl hstep
        · rw [if_neg hq] at hstep
          exact Or.inl hstep
    · exact Or.inr (List.mem_cons_of_mem _ hmem)

/-- C9: the dequeue step preserves per-project running-exclusivity: a queued
job is transitioned to `running` only when no job of the same project is
`running` (second conjunct: otherwise the step does nothing), the resulting
state still has at most one running job per project (first conjunct), and
finishing a job (marking it `succeeded` or `failed`) also preserves the
invariant (third conjunct). -/
theorem worker_dequeue_preserves_exclusivity (jobs : List Job)
    (hids : (jobs.map Job.id).Nodup) (hinv : at_most_one_running jobs) :
    at_most_one_running (worker_dequeue jobs)
    ∧ (∀ j, oldest_queued jobs = some j →
        has_running_for_project jobs j.project_id = true → worker_dequeue jobs = jobs)
    ∧ (∀ st, st = "succeeded" ∨ st = "failed" →
        ∀ i, at_most_one_running (mark_job_status jobs i st)) := by
  have hfinish : ∀ st, st = "succeeded" ∨ st = "failed" →
      ∀ i, at_most_one_running (mark_job_status jobs i st) := by
    intro st hst i pid
    have hrun : (st == "running") = false := by
      rcases hst with h | h <;> rw [h] <;> rfl
    unfold running_count mark_job_status
    rw [List.countP_map]
    refine le_trans (List.countP_mono_left ?_) (hinv pid)
    intro x _ hx
    simp only [Function.comp] at hx
    by_cases hid : (x.id == i) = true
    · rw [if_pos hid] at hx
      simp only [Bool.and_eq_true] at hx
      rw [hrun] at hx
      exact absurd hx.2 (by simp)
    · rwa [if_neg hid] at hx
  refine ⟨?_, ?_, hfinish⟩
  · unfold worker_dequeue
    rcases hold : oldest_queued jobs with _ | j
    · exact hinv
    · dsimp only
      by_cases hguard : has_running_for_project jobs j.project_id = true
      · rw [if_pos hguard]
        exact hinv
      · rw [if_neg hguard]
        have hmem : j ∈ jobs := by
          rcases oldest_queued_mem jobs none j hold with h | h
          · exact absurd h (by simp)
          · exact h
        intro pid
        unfold running_count mark_job_status
        rw [List.countP_map]
        by_cases hpid : pid = j.project_id
        · have hzero : jobs.countP (fun x => x.project_id == pid && x.status == "running") = 0 := by
            refine List.countP_eq_zero.mpr ?_
            intro x hx hcontra
            refine hguard ?_
            unfold has_running_for_project
            refine List.any_eq_true.mpr ⟨x, hx, ?_⟩
            rw [← hpid]
            exact hcontra
          have hone : jobs.countP (fun x => x.id == j.id) ≤ 1 := by
            have hcount := List.nodup_iff_count_le_one.mp hids j.id
            calc jobs.countP (fun x => x.id == j.id)
                = (jobs.map Job.id).countP (fun n => n == j.id) := by
                  rw [List.countP_map]; rfl
              _ = (jobs.map Job.id).count j.id := by
                  rw [List.count]
              _ ≤ 1 := hcount
          refine le_trans (List.countP_mono_left (q := fun x =>
            (x.id == j.id) || (x.project_id == pid && x.status == "running")) ?_)
            (le_trans (countP_or_le_add _ _ jobs) ?_)
          · intro x _ hx
            simp only [Function.comp] at hx
            by_cases hid : (x.id == j.id) = true
            · simp [hid]
            · rw [if_neg hid] at hx
              simp [hx]
          · rw [hzero]
            omega
        · refine le_trans (le_of_eq (List.countP_congr ?_)) (hinv pid)
          intro x hx
          simp only [Function.comp]
          by_cases hid : (x.id == j.id) = true
          · have hxj : x = j := List.inj_on_of_nodup_map hids hx hmem (by simpa using hid)
            subst hxj
            rw [if_pos hid]
            have hf : (x.project_id == pid) = false :=
              beq_eq_false_iff_ne.mpr (fun hc => hpid hc.symm)
            simp [hf]
          · rw [if_neg hid]
  · intro j hj hrun
    unfold worker_dequeue
    rw [hj]
    dsimp only
    rw [if_pos hrun]

/-- A single queued job, for exercising the dequeue invariant. -/
def c9Jobs : List Job :=
  [{ id := 0, project_id := "p1", status := "queued", created_at := 0 }]

/-- Witness for C9 at a one-job queue. -/
theorem worker_dequeue_preserves_exclusivity_witness :
    running_count (worker_dequeue c9Jobs) "p1" ≤ 1
    ∧ running_count (worker_dequeue c9Jobs) "p2" ≤ 1 := by
  have hinv : at_most_one_running c9Jobs := by
    intro pid
    exact List.countP_le_length _
  have h := worker_dequeue_preserves_exclusivity c9Jobs (by decide) hinv
  exact ⟨h.1 "p1", h.1 "p2"⟩

/-! ## Next-action derivation (`server/utils.py`, `derive_next_action`) -/

/-- `total_segments` from `server/utils.py`:
`(d + seg - 1) // seg` with `seg = int(project.segment_duration or 15)`. -/
def total_segments (p : Project) : Nat :=
  let d := p.total_duration_seconds
  let seg := if p.segment_duration = 0 then 15 else p.segment_duration
  (d + seg - 1) / seg

/-- Python truthiness of an optional string column: `None` and `""` are
falsy. -/
def opt_str_falsy (o : Option String) : Bool :=
  match o with
  | none => true
  | some s => s.data.isEmpty

/-- Python `not s.strip()` for an optional text column. -/
def is_blank (s : String) : Bool :=
  (stripChars s.data).isEmpty

/-- The `{s.index: s for s in segments}` dict followed by `.get(idx)`:
on duplicate indices the later row wins. -/
def by_index_get (segments : List Segment) (idx : Int) : Option Segment :=
  segments.foldl (fun acc s => if s.index == idx then some s else acc) none

/-- `derive_next_action` from `server/utils.py`, translated clause by
clause (including the `idx < 0` clamp and the truthiness tests). -/
def derive_next_action (project : Project) (segments : List Segment) : String :=
  if is_blank (project.full_script.getD "") then "generate_full_script"
  else
    let expected := total_segments project
    let idx0 := project.current_segment_index
    let idx := if idx0 < 0 then 0 else idx0
    if (expected : Int) ≤ idx then
      if opt_str_falsy project.final_video_path then "assemble" else "done"
    else
      match by_index_get segments idx with
      | none => "generate_segment"
      | some seg =>
        if seg.status == "pending" then "generate_segment"
        else if seg.status == "script_ready" then
          (if opt_str_falsy seg.video_path then "upload_video" else "analyze")
        else if seg.status == "waiting_video" then
          (if opt_str_falsy seg.video_path then "upload_video" else "analyze")
        else if seg.status == "analyzing" then "wait_analyze"
        else if seg.status == "completed" then "generate_segment"
        else if seg.status == "failed" then "retry"
        else "unknown"

/-- The spec's total-segment count: `⌈total_duration_seconds /
segment_duration⌉` (stated through divisibility, the usual reading of the
ceiling for positive integers). -/
def spec_total_segments (p : Project) : Nat :=
  if p.segment_duration ∣ p.total_duration_seconds then
    p.total_duration_seconds / p.segment_duration
  else
    p.total_duration_seconds / p.segment_duration + 1

/-- §4.5's rules written in their stated order: empty script; cursor beyond
the last segment (done/assemble on final video); then the cursor segment's
status ladder, looking the segment up by index. -/
def spec_next_action (project : Project) (segments : List Segment) : String :=
  if is_blank (project.full_script.getD "") then "generate_full_script"
  else if (spec_total_segments project : Int) ≤ project.current_segment_index then
    (if opt_str_falsy project.final_video_path then "assemble" else "done")
  else
    match segments.find? (fun s => s.index == project.current_segment_index) with
    | none => "generate_segment"
    | some seg =>
      if seg.status == "pending" then "generate_segment"
      else if seg.status == "script_ready" then
        (if opt_str_falsy seg.video_path then "upload_video" else "analyze")
      else if seg.status == "waiting_video" then
        (if opt_str_falsy seg.video_path then "upload_video" else "analyze")
      else if seg.status == "analyzing" then "wait_analyze"
      else if seg.status == "completed" then "generate_segment"
      else if seg.status == "failed" then "retry"
      else "unknown"

/-- Ceiling division agreement: for a positive divisor,
`(d + s - 1) / s` is `d / s` rounded up. -/
theorem add_pred_div_eq_ceil (d s : Nat) (hs : 0 < s) :
    (d + s - 1) / s = (if s ∣ d then d / s else d / s + 1) := by
  rcases Nat.eq_zero_or_pos d with hd | hd
  · subst hd
    simp [Nat.div_eq_of_lt (by omega : s - 1 < s)]
  · have hd1 : d + s - 1 = (d - 1) + s := by omega
    rw [hd1, Nat.add_div_right _ hs]
    rcases Nat.lt_or_ge (d % s) 1 with hr | hr
    · have hdvd : s ∣ d := Nat.dvd_of_mod_eq_zero (by omega)
      rw [if_pos hdvd]
      obtain ⟨k, hk⟩ := hdvd
      subst hk
      have hk1 : 0 < k := by
        rcases Nat.eq_zero_or_pos k with h0 | h0
        · subst h0; simp at hd
        · exact h0
      have : s * k - 1 = s * (k - 1) + (s - 1) := by
        cases k with
        | zero => omega
        | succ k' => simp [Nat.mul_succ]; omega
      rw [this, Nat.mul_add_div hs, Nat.div_eq_of_lt (by omega : s - 1 < s),
        Nat.mul_div_cancel_left _ hs]
      omega
    · have hndvd : ¬ s ∣ d := by
        intro hdvd
        have := Nat.mod_eq_zero_of_dvd hdvd
        omega
      rw [if_neg hndvd]
      have hdecomp : d = s * (d / s) + d % s := (Nat.div_add_mod d s).symm
      have hd1' : d - 1 = s * (d / s) + (d % s - 1) := by omega
      have hmod : d % s < s := Nat.mod_lt _ hs
      rw [hd1', Nat.mul_add_div hs, Nat.div_eq_of_lt (by omega : d % s - 1 < s)]

/-- A fold that overwrites on match leaves the accumulator untouched when no
element matches. -/
theorem by_index_foldl_const (idx : Int) :
    ∀ (l : List Segment) (acc : Option Segment),
      (∀ s ∈ l, (s.index == idx) = false) →
      l.foldl (fun acc s => if s.index == idx then some s else acc) acc = acc := by
  intro l
  induction l with
  | nil => intro acc _; rfl
  | cons a l ih =>
    intro acc h
    have ha := h a (List.mem_cons_self _ _)
    rw [List.foldl_cons, if_neg (by simp [ha])]
    exact ih acc (fun s hs => h s (List.mem_cons_of_mem _ hs))

/-- With pairwise-distinct indices, the last-wins dict lookup of
`derive_next_action` agrees with first-match search. -/
theorem by_index_get_eq_find (segments : List Segment) (idx : Int)
    (h : (segments.map Segment.index).Nodup) :
    by_index_get segments idx = segments.find? (fun s => s.index == idx) := by
  induction segments with
  | nil => rfl
  | cons a l ih =>
    rw [List.map_cons, List.nodup_cons] at h
    obtain ⟨hnotin, htail⟩ := h
    unfold by_index_get
    rw [List.foldl_cons]
    by_cases ha : (a.index == idx) = true
    · rw [if_pos ha]
      have hnone : ∀ s ∈ l, (s.index == idx) = false := by
        intro s hs
        refine beq_eq_false_iff_ne.mpr ?_
        intro hcontra
        refine hnotin ?_
        have haidx : a.index = idx := by simpa using ha
        rw [← haidx] at hcontra
        exact hcontra ▸ List.mem_map_of_mem Segment.index hs
      rw [by_index_foldl_const idx l (some a) hnone, List.find?_cons, ha]
    · have ha' : (a.index == idx) = false := by
        simpa using ha
      rw [if_neg ha, List.find?_cons, ha']
      exact ih htail

/-- C10: `derive_next_action` implements §4.5's rules in their stated order,
with `total_segments = ⌈total_duration_seconds / segment_duration⌉`, for any
project with a positive segment duration and a non-negative cursor and any
segment rows with distinct indices. -/
theorem derive_next_action_matches_spec (project : Project) (segments : List Segment)
    (hdur : 0 < project.segment_duration)
    (hcur : 0 ≤ project.current_segment_index)
    (hnodup : (segments.map Segment.index).Nodup) :
    derive_next_action project segments = spec_next_action project segments := by
  have hseg : (if project.segment_duration = 0 then 15 else project.segment_duration)
      = project.segment_duration := if_neg (by omega)
  have htot : total_segments project = spec_total_segments project := by
    simp only [total_segments, spec_total_segments, hseg]
    exact add_pred_div_eq_ceil _ _ hdur
  have hidx : (if project.current_segment_index < 0 then 0
      else project.current_segment_index) = project.current_segment_index :=
    if_neg (by omega)
  unfold derive_next_action spec_next_action
  simp only [hidx, htot, by_index_get_eq_find segments project.current_segment_index hnodup]

/-- Project and segments exercising the §4.5 ladder at a `script_ready`
segment without video. -/
def c10Project : Project :=
  { user_prompt := "test prompt", total_duration_seconds := 30, segment_duration := 15,
    full_script := some "FULL_SCRIPT", current_segment_index := 0 }

/-- Segment rows for the `derive_next_action` witness. -/
def c10Segments : List Segment :=
  [{ index := 0, segment_script := "S0", video_prompt := "P0", status := "script_ready" },
   { index := 1 }]

/-- Witness for C10 at a concrete project, also pinning the derived action. -/
theorem derive_next_action_matches_spec_witness :
    derive_next_action c10Project c10Segments = spec_next_action c10Project c10Segments
    ∧ derive_next_action c10Project c10Segments = "upload_video" := by
  refine ⟨derive_next_action_matches_spec c10Project c10Segments (by decide) (by decide)
    (by decide), by decide⟩
